import Mathlib

/-!
Verification development for the mediasoup signaling server of the
calling_app repository.  The server keeps four pieces of per-process
state — a transport map keyed by strings of the shape `<socketId>-producer`
or `<socketId>-consumer`, a producer map keyed by producer id, a consumer
map keyed by consumer id, and a per-socket `rtpCapabilities` field — and
serves the socket events `createProducerTransport`, `createConsumerTransport`,
`connectProducerTransport`, `connectConsumerTransport`, `produce`, `consume`,
`resumeConsumer`, `getProducers`, `setRtpCapabilities` and `disconnect`.

JavaScript `Map`s are embedded as association lists with `Map` semantics:
`mapSet` updates an existing key in place or appends a fresh one, `mapGet`
returns the entry at a key, `mapDelete` removes it.  Media Engine
(mediasoup) calls are oracles passed as `Except`-valued parameters: the
value the awaited call returned, or the error it threw.  Broadcasts via
`socket.broadcast.emit` are recorded as events carrying the emitting
socket id; recipients are all connected sockets except the emitter.
-/

namespace CallingApp

/-- Media kind of a producer or consumer (`kind` in mediasoup). -/
inductive MediaKind where
  | audio
  | video
deriving DecidableEq, Repr

/-- Handle of a WebRTC transport returned by `createWebRtcTransport`. -/
structure TransportH where
  id : String
deriving DecidableEq, Repr

/-- Handle of a mediasoup producer returned by `transport.produce`. -/
structure ProducerH where
  id : String
  kind : MediaKind
deriving DecidableEq, Repr

/-- Handle of a mediasoup consumer returned by `transport.consume`; the
engine consumer carries the id of the producer it consumes. -/
structure ConsumerH where
  id : String
  kind : MediaKind
  producerId : String
deriving DecidableEq, Repr

/-- Value stored in the `producers` map: `{ producer, socketId: socket.id }`. -/
structure ProducerEntry where
  producer : ProducerH
  socketId : String
deriving DecidableEq, Repr

/-- Value stored in the `consumers` map: `{ consumer, socketId: socket.id }`. -/
structure ConsumerEntry where
  consumer : ConsumerH
  socketId : String
deriving DecidableEq, Repr

/-- JS `Map.get`: the value at the key, if present. -/
def mapGet {α : Type} : List (String × α) → String → Option α
  | [], _ => none
  | (k, v) :: rest, key => if k = key then some v else mapGet rest key

/-- JS `Map.set`: replace the value at an existing key in place, or append
a new entry at the end. -/
def mapSet {α : Type} : List (String × α) → String → α → List (String × α)
  | [], key, val => [(key, val)]
  | (k, v) :: rest, key, val =>
      if k = key then (key, val) :: rest else (k, v) :: mapSet rest key val

/-- JS `Map.delete`: remove the entry at the key. -/
def mapDelete {α : Type} : List (String × α) → String → List (String × α)
  | [], _ => []
  | (k, v) :: rest, key => if k = key then rest else (k, v) :: mapDelete rest key

/-- Keys of an association list. -/
def mapKeys {α : Type} (m : List (String × α)) : List String := m.map (·.1)

/-- A JS `Map` never holds two entries with the same key; this is the
well-formedness invariant of its association-list embedding. -/
def keysNodup {α : Type} (m : List (String × α)) : Prop := (mapKeys m).Nodup

instance {α : Type} (m : List (String × α)) : Decidable (keysNodup m) := by
  unfold keysNodup; infer_instance

/-- Number of entries at a given key. -/
def countKey {α : Type} (m : List (String × α)) (k : String) : Nat :=
  (mapKeys m).count k

/-- The whole mutable state of the server process. -/
structure ServerState where
  /-- `const transports = new Map()`, keyed by `socketId-producer` / `socketId-consumer`. -/
  transports : List (String × TransportH)
  /-- `const producers = new Map()`, keyed by producer id. -/
  producers : List (String × ProducerEntry)
  /-- `const consumers = new Map()`, keyed by consumer id. -/
  consumers : List (String × ConsumerEntry)
  /-- `socket.rtpCapabilities` of each socket, set by `setRtpCapabilities`;
  capabilities are opaque blobs, embedded as `Nat`. -/
  caps : List (String × Nat)
  /-- Ids of engine resources on which `.close()` has been called. -/
  engineClosed : List String
  /-- Ids of the currently connected sockets. -/
  connected : List String
deriving DecidableEq, Repr

/-- The state at server start: every map empty. -/
def initState : ServerState := ⟨[], [], [], [], [], []⟩

/-- Response sent through a socket.io acknowledgment callback. -/
inductive Resp where
  /-- `{ success: true }` -/
  | ok
  /-- `{ id }` from `produce` -/
  | okId (id : String)
  /-- transport options `{ id, iceParameters, iceCandidates, dtlsParameters }` -/
  | okTransport (id : String)
  /-- `{ id, producerId, kind, rtpParameters }` from `consume` -/
  | okConsumer (id : String) (producerId : String) (kind : MediaKind)
  /-- `{ error: error.message }` -/
  | err (msg : String)
deriving DecidableEq, Repr

/-- Observable side effects of a handler, in emission order. -/
inductive Event where
  /-- `producers.set(producer.id, ...)` committed the producer to the registry. -/
  | producerStored (producerId : String)
  /-- `socket.broadcast.emit("newProducer", { producerId, socketId })` from `fromSid`. -/
  | newProducer (producerId : String) (fromSid : String)
  /-- `socket.broadcast.emit("producerClosed", { producerId })` from `fromSid`. -/
  | producerClosed (producerId : String) (fromSid : String)
deriving DecidableEq, Repr

/-- Recipients of a `socket.broadcast.emit`: every connected socket except
the emitting one. -/
def eventRecipients (connected : List String) : Event → List String
  | Event.producerStored _ => []
  | Event.newProducer _ fromSid => connected.filter (fun x => x ≠ fromSid)
  | Event.producerClosed _ fromSid => connected.filter (fun x => x ≠ fromSid)

/-- Key of a socket's producer-side transport: `` `${socket.id}-producer` ``. -/
def pkey (sid : String) : String := sid ++ "-producer"

/-- Key of a socket's consumer-side transport: `` `${socket.id}-consumer` ``. -/
def ckey (sid : String) : String := sid ++ "-consumer"

/-- Handler of `createProducerTransport`: awaits `createWebRtcTransport()`
(the oracle `eng`), records the transport under `socketId-producer`, and
answers with the transport options; a thrown engine error is caught and
returned as `{ error }` with nothing recorded. -/
def handleCreateProducerTransport (st : ServerState) (sid : String)
    (eng : Except String TransportH) : ServerState × Resp :=
  match eng with
  | Except.error e => (st, Resp.err e)
  | Except.ok t =>
      ({ st with transports := mapSet st.transports (pkey sid) t }, Resp.okTransport t.id)

/-- Handler of `createConsumerTransport`: same as the producer side but the
transport is recorded under `socketId-consumer`. -/
def handleCreateConsumerTransport (st : ServerState) (sid : String)
    (eng : Except String TransportH) : ServerState × Resp :=
  match eng with
  | Except.error e => (st, Resp.err e)
  | Except.ok t =>
      ({ st with transports := mapSet st.transports (ckey sid) t }, Resp.okTransport t.id)

/-- Handler of `connectProducerTransport`: looks up the stored producer
transport, throws `Producer transport not found` when absent, otherwise
forwards the dtls parameters to the transport's `connect` (the oracle
`eng`, applied to the stored transport and the received parameters); every
thrown error is caught and returned as `{ error }`. -/
def handleConnectProducerTransport (st : ServerState) (sid : String) (dtls : Nat)
    (eng : TransportH → Nat → Except String Unit) : Resp :=
  match mapGet st.transports (pkey sid) with
  | none => Resp.err "Producer transport not found"
  | some t =>
      match eng t dtls with
      | Except.ok _ => Resp.ok
      | Except.error e => Resp.err e

/-- Handler of `connectConsumerTransport`: the receive-side twin of
`handleConnectProducerTransport`, with error `Consumer transport not found`. -/
def handleConnectConsumerTransport (st : ServerState) (sid : String) (dtls : Nat)
    (eng : TransportH → Nat → Except String Unit) : Resp :=
  match mapGet st.transports (ckey sid) with
  | none => Resp.err "Consumer transport not found"
  | some t =>
      match eng t dtls with
      | Except.ok _ => Resp.ok
      | Except.error e => Resp.err e

/-- Handler of `produce`: requires the stored producer transport, awaits
`transport.produce` (oracle `eng`), stores the producer keyed by its id
with the owning socket id, broadcasts `newProducer` to the other peers and
answers `{ id }`; a thrown error is caught and answered as `{ error }`
with nothing stored and nothing broadcast.  The event trace records the
registry commit and the broadcast in program order. -/
def handleProduce (st : ServerState) (sid : String)
    (eng : Except String ProducerH) : ServerState × Resp × List Event :=
  match mapGet st.transports (pkey sid) with
  | none => (st, Resp.err "Producer transport not found", [])
  | some _ =>
      match eng with
      | Except.error e => (st, Resp.err e, [])
      | Except.ok p =>
          ({ st with producers := mapSet st.producers p.id ⟨p, sid⟩ },
           Resp.okId p.id,
           [Event.producerStored p.id, Event.newProducer p.id sid])

/-- Handler of `consume`: checks, in program order, the stored consumer
transport (`Consumer transport not found`), the producer registry entry
(`Producer not found`), the socket's stored capabilities (`RTP capabilities
not set`) and the router compatibility predicate `canConsume` (`Cannot
consume - incompatible RTP capabilities`); then awaits `transport.consume`
(oracle `eng`), stores the consumer keyed by its id with the owning socket
id, and answers the consumer payload.  Every thrown error is caught and
answered as `{ error }` with nothing stored. -/
def handleConsume (st : ServerState) (sid : String) (producerId : String)
    (canConsume : String → Nat → Bool) (eng : Except String ConsumerH) :
    ServerState × Resp :=
  match mapGet st.transports (ckey sid) with
  | none => (st, Resp.err "Consumer transport not found")
  | some _ =>
      match mapGet st.producers producerId with
      | none => (st, Resp.err "Producer not found")
      | some _ =>
          match mapGet st.caps sid with
          | none => (st, Resp.err "RTP capabilities not set")
          | some c =>
              if canConsume producerId c then
                match eng with
                | Except.error e => (st, Resp.err e)
                | Except.ok cons =>
                    ({ st with consumers := mapSet st.consumers cons.id ⟨cons, sid⟩ },
                     Resp.okConsumer cons.id producerId cons.kind)
              else
                (st, Resp.err "Cannot consume - incompatible RTP capabilities")

/-- Handler of `resumeConsumer`: looks the consumer up by id only — the
requesting socket id `sid` is never consulted — throws `Consumer not found`
when absent, otherwise awaits `consumer.resume()` (oracle `eng`) and
answers `{ success: true }`; a thrown error is caught and answered as
`{ error }`. -/
def handleResumeConsumer (st : ServerState) (cid : String) (sid : String)
    (eng : Except String Unit) : Resp :=
  match mapGet st.consumers cid with
  | none => Resp.err "Consumer not found"
  | some _ =>
      match eng with
      | Except.ok _ => Resp.ok
      | Except.error e => Resp.err e

/-- Handler of `getProducers`: the values of the producer map whose owner
is not the caller, mapped to `{ producerId: p.producer.id, socketId }`. -/
def handleGetProducers (st : ServerState) (sid : String) : List (String × String) :=
  ((st.producers.map (·.2)).filter (fun e => e.socketId ≠ sid)).map
    (fun e => (e.producer.id, e.socketId))

/-- Handler of `setRtpCapabilities`: stores the blob on the socket,
overwriting any prior value; fire-and-forget. -/
def handleSetRtpCapabilities (st : ServerState) (sid : String) (c : Nat) : ServerState :=
  { st with caps := mapSet st.caps sid c }

/-- The `forEach`-with-`delete` loop shape of the disconnect handler:
visit the map in insertion order, close and delete every entry whose owner
(as read off by `owner`) is `sid`.  Returns the remaining map and the keys
of the removed entries in iteration order. -/
def removeOwned {α : Type} (owner : α → String) :
    List (String × α) → String → List (String × α) × List String
  | [], _ => ([], [])
  | (k, e) :: rest, sid =>
      let r := removeOwned owner rest sid
      if owner e = sid then (r.1, k :: r.2) else ((k, e) :: r.1, r.2)

/-- The `producers.forEach` loop of the disconnect handler: close and
delete every producer owned by `sid`, broadcasting for each. -/
def removeOwnedProducers (m : List (String × ProducerEntry)) (sid : String) :
    List (String × ProducerEntry) × List String :=
  removeOwned (·.socketId) m sid

/-- The `consumers.forEach` loop of the disconnect handler: close and
delete every consumer owned by `sid`. -/
def removeOwnedConsumers (m : List (String × ConsumerEntry)) (sid : String) :
    List (String × ConsumerEntry) × List String :=
  removeOwned (·.socketId) m sid

/-- The transport-cleanup prologue of the disconnect handler: read both
transports of the socket from the map, then close and delete whichever
exist.  Returns the remaining map and the ids of the closed transports. -/
def closeTransportsOf (ts : List (String × TransportH)) (sid : String) :
    List (String × TransportH) × List String :=
  let pt := mapGet ts (pkey sid)
  let ct := mapGet ts (ckey sid)
  let ts1 := match pt with
    | some _ => mapDelete ts (pkey sid)
    | none => ts
  let ts2 := match ct with
    | some _ => mapDelete ts1 (ckey sid)
    | none => ts1
  (ts2,
   (match pt with | some t => [t.id] | none => []) ++
     (match ct with | some t => [t.id] | none => []))

/-- Handler of `disconnect`: reads both transports of the socket, closes
and deletes whichever exist; closes and deletes every producer owned by
the socket, broadcasting `producerClosed { producerId }` for each; closes
and deletes every consumer owned by the socket.  The socket itself leaves
the connected set. -/
def handleDisconnect (st : ServerState) (sid : String) : ServerState × List Event :=
  let tr := closeTransportsOf st.transports sid
  let rp := removeOwnedProducers st.producers sid
  let rc := removeOwnedConsumers st.consumers sid
  ({ transports := tr.1
     producers := rp.1
     consumers := rc.1
     caps := st.caps
     engineClosed := st.engineClosed ++ tr.2 ++ rp.2 ++ rc.2
     connected := st.connected.filter (fun x => x ≠ sid) },
   rp.2.map (fun pid => Event.producerClosed pid sid))

/-- One inbound socket event together with the outcome of the Media Engine
calls it performs, state-transition view. -/
inductive Op where
  | createProducerTransport (sid : String) (eng : Except String TransportH)
  | createConsumerTransport (sid : String) (eng : Except String TransportH)
  | connectProducerTransport (sid : String) (dtls : Nat)
      (eng : TransportH → Nat → Except String Unit)
  | connectConsumerTransport (sid : String) (dtls : Nat)
      (eng : TransportH → Nat → Except String Unit)
  | produce (sid : String) (eng : Except String ProducerH)
  | consume (sid : String) (producerId : String) (canConsume : String → Nat → Bool)
      (eng : Except String ConsumerH)
  | resumeConsumer (cid : String) (sid : String) (eng : Except String Unit)
  | getProducers (sid : String)
  | setRtpCapabilities (sid : String) (c : Nat)
  | disconnect (sid : String)

/-- State transition of one socket event. -/
def applyOp (st : ServerState) : Op → ServerState
  | Op.createProducerTransport sid eng => (handleCreateProducerTransport st sid eng).1
  | Op.createConsumerTransport sid eng => (handleCreateConsumerTransport st sid eng).1
  | Op.connectProducerTransport _ _ _ => st
  | Op.connectConsumerTransport _ _ _ => st
  | Op.produce sid eng => (handleProduce st sid eng).1
  | Op.consume sid producerId canC eng => (handleConsume st sid producerId canC eng).1
  | Op.resumeConsumer _ _ _ => st
  | Op.getProducers _ => st
  | Op.setRtpCapabilities sid c => handleSetRtpCapabilities st sid c
  | Op.disconnect sid => (handleDisconnect st sid).1

/-- State after a sequence of socket events starting at server start. -/
def runOps (ops : List Op) : ServerState := ops.foldl applyOp initState

/-! ### Lemmas about the `Map` embedding -/

theorem append_left_cancel {s a b : String} (h : s ++ a = s ++ b) : a = b := by
  have hd : s.data ++ a.data = s.data ++ b.data := by
    have h2 := congrArg String.data h
    simpa [String.data_append] using h2
  have h3 : a.data = b.data := List.append_cancel_left hd
  cases a; cases b; exact congrArg String.mk h3

theorem pkey_ne_ckey (sid : String) : pkey sid ≠ ckey sid := by
  intro h
  have h2 := append_left_cancel (s := sid) h
  simp at h2

theorem mapGet_eq_none_of_not_mem {α : Type} {m : List (String × α)} {k : String}
    (h : k ∉ mapKeys m) : mapGet m k = none := by
  induction m with
  | nil => rfl
  | cons hd tl ih =>
      obtain ⟨k1, v1⟩ := hd
      have hx : k ∉ k1 :: mapKeys tl := h
      rw [List.mem_cons] at hx
      push_neg at hx
      simp [mapGet, Ne.symm hx.1, ih hx.2]

theorem mapGet_mapSet_self {α : Type} (m : List (String × α)) (k : String) (v : α) :
    mapGet (mapSet m k v) k = some v := by
  induction m with
  | nil => simp [mapSet, mapGet]
  | cons hd tl ih =>
      obtain ⟨k1, v1⟩ := hd
      by_cases h : k1 = k
      · simp [mapSet, h, mapGet]
      · simp [mapSet, h, mapGet, ih]

theorem mapGet_mapSet_ne {α : Type} (m : List (String × α)) {k k' : String} (v : α)
    (h : k ≠ k') : mapGet (mapSet m k v) k' = mapGet m k' := by
  induction m with
  | nil => simp [mapSet, mapGet, h]
  | cons hd tl ih =>
      obtain ⟨k1, v1⟩ := hd
      by_cases h1 : k1 = k
      · subst h1; simp [mapSet, mapGet, h]
      · simp [mapSet, h1, mapGet, ih]

theorem mapKeys_mapSet {α : Type} (m : List (String × α)) (k : String) (v : α) :
    mapKeys (mapSet m k v) =
      if k ∈ mapKeys m then mapKeys m else mapKeys m ++ [k] := by
  induction m with
  | nil => simp [mapSet, mapKeys]
  | cons hd tl ih =>
      obtain ⟨k1, v1⟩ := hd
      by_cases h : k1 = k
      · subst h; simp [mapSet, mapKeys]
      · have hcons : mapKeys (mapSet ((k1, v1) :: tl) k v) = k1 :: mapKeys (mapSet tl k v) := by
          simp [mapSet, h, mapKeys]
        rw [hcons, ih]
        have hne : k ≠ k1 := Ne.symm h
        have hmem : k ∈ mapKeys ((k1, v1) :: tl) ↔ k ∈ mapKeys tl := by
          have hk : mapKeys ((k1, v1) :: tl) = k1 :: mapKeys tl := rfl
          rw [hk, List.mem_cons]
          exact or_iff_right hne
        by_cases h2 : k ∈ mapKeys tl
        · rw [if_pos h2, if_pos (hmem.mpr h2)]
          rfl
        · rw [if_neg h2, if_neg (fun hc => h2 (hmem.mp hc))]
          rfl

theorem keysNodup_mapSet {α : Type} {m : List (String × α)} (k : String) (v : α)
    (h : keysNodup m) : keysNodup (mapSet m k v) := by
  unfold keysNodup at h ⊢
  rw [mapKeys_mapSet]
  by_cases hm : k ∈ mapKeys m
  · simpa [hm] using h
  · simp [hm, List.nodup_append, h]

theorem mapKeys_mapDelete_sublist {α : Type} (m : List (String × α)) (k : String) :
    List.Sublist (mapKeys (mapDelete m k)) (mapKeys m) := by
  induction m with
  | nil => simp [mapDelete, mapKeys]
  | cons hd tl ih =>
      obtain ⟨k1, v1⟩ := hd
      by_cases h : k1 = k
      · simpa [mapDelete, h, mapKeys] using List.Sublist.cons k (List.Sublist.refl _)
      · simpa [mapDelete, h, mapKeys] using List.Sublist.cons₂ k1 ih

theorem keysNodup_mapDelete {α : Type} {m : List (String × α)} (k : String)
    (h : keysNodup m) : keysNodup (mapDelete m k) :=
  List.Nodup.sublist (mapKeys_mapDelete_sublist m k) h

theorem mapGet_mapDelete_self {α : Type} {m : List (String × α)} (k : String)
    (h : keysNodup m) : mapGet (mapDelete m k) k = none := by
  induction m with
  | nil => rfl
  | cons hd tl ih =>
      obtain ⟨k1, v1⟩ := hd
      have hx : (k1 :: mapKeys tl).Nodup := h
      rw [List.nodup_cons] at hx
      by_cases h1 : k1 = k
      · subst h1
        simpa [mapDelete] using mapGet_eq_none_of_not_mem hx.1
      · simp [mapDelete, h1, mapGet, ih hx.2]

theorem mapGet_mapDelete_ne {α : Type} (m : List (String × α)) {k k' : String}
    (h : k ≠ k') : mapGet (mapDelete m k) k' = mapGet m k' := by
  induction m with
  | nil => rfl
  | cons hd tl ih =>
      obtain ⟨k1, v1⟩ := hd
      by_cases h1 : k1 = k
      · subst h1; simp [mapDelete, mapGet, h]
      · simp [mapDelete, h1, mapGet, ih]

theorem countKey_le_one {α : Type} {m : List (String × α)} (k : String)
    (h : keysNodup m) : countKey m k ≤ 1 :=
  List.nodup_iff_count_le_one.mp h k

/-! ### Lemmas about the disconnect cleanup loops -/

theorem removeOwned_fst_mem {α : Type} (owner : α → String) (m : List (String × α))
    (sid k : String) (e : α) :
    (k, e) ∈ (removeOwned owner m sid).1 ↔ (k, e) ∈ m ∧ owner e ≠ sid := by
  induction m with
  | nil => simp [removeOwned]
  | cons hd tl ih =>
      obtain ⟨k1, e1⟩ := hd
      by_cases h : owner e1 = sid
      · constructor
        · intro hm
          have h2 := ih.mp (by simpa [removeOwned, h] using hm)
          exact ⟨List.mem_cons_of_mem _ h2.1, h2.2⟩
        · rintro ⟨hm, hne⟩
          rcases List.mem_cons.mp hm with heq | htl
          · exact absurd (congrArg owner (congrArg Prod.snd heq)) (by simpa [h] using hne)
          · simpa [removeOwned, h] using ih.mpr ⟨htl, hne⟩
      · constructor
        · intro hm
          have hm2 : k = k1 ∧ e = e1 ∨ (k, e) ∈ (removeOwned owner tl sid).1 := by
            simpa [removeOwned, h] using hm
          rcases hm2 with ⟨hk, he⟩ | htl
          · subst hk; subst he
            exact ⟨List.mem_cons_self _ _, h⟩
          · have h2 := ih.mp htl
            exact ⟨List.mem_cons_of_mem _ h2.1, h2.2⟩
        · rintro ⟨hm, hne⟩
          rcases List.mem_cons.mp hm with heq | htl
          · simp [removeOwned, h, heq]
          · simpa [removeOwned, h] using Or.inr (ih.mpr ⟨htl, hne⟩)

theorem removeOwned_snd {α : Type} (owner : α → String) (m : List (String × α))
    (sid : String) :
    (removeOwned owner m sid).2 =
      (m.filter (fun q => owner q.2 = sid)).map (·.1) := by
  induction m with
  | nil => simp [removeOwned]
  | cons hd tl ih =>
      obtain ⟨k1, e1⟩ := hd
      by_cases h : owner e1 = sid
      · simp [removeOwned, h, ih]
      · simp [removeOwned, h, ih]

theorem removeOwned_of_no_owner {α : Type} (owner : α → String)
    (m : List (String × α)) (sid : String)
    (h : ∀ p ∈ m, owner (Prod.snd p) ≠ sid) : removeOwned owner m sid = (m, []) := by
  induction m with
  | nil => rfl
  | cons hd tl ih =>
      obtain ⟨k1, e1⟩ := hd
      have h1 : owner e1 ≠ sid := h (k1, e1) (List.mem_cons_self _ _)
      have h2 : removeOwned owner tl sid = (tl, []) :=
        ih (fun p hp => h p (List.mem_cons_of_mem _ hp))
      simp [removeOwned, h1, h2]

theorem removeOwned_fst_no_owner {α : Type} (owner : α → String)
    (m : List (String × α)) (sid : String) :
    ∀ p ∈ (removeOwned owner m sid).1, owner (Prod.snd p) ≠ sid := by
  intro p hp
  obtain ⟨k, e⟩ := p
  exact ((removeOwned_fst_mem owner m sid k e).mp hp).2

theorem removeOwned_idem {α : Type} (owner : α → String) (m : List (String × α))
    (sid : String) :
    removeOwned owner (removeOwned owner m sid).1 sid = ((removeOwned owner m sid).1, []) :=
  removeOwned_of_no_owner owner _ sid (removeOwned_fst_no_owner owner m sid)

/-! ### Lemmas about the transport cleanup prologue -/

theorem closeTransportsOf_get_pkey (ts : List (String × TransportH)) (sid : String)
    (h : keysNodup ts) : mapGet (closeTransportsOf ts sid).1 (pkey sid) = none := by
  unfold closeTransportsOf
  cases hpt : mapGet ts (pkey sid) with
  | none =>
      cases hct : mapGet ts (ckey sid) with
      | none => simpa using hpt
      | some t =>
          simpa [mapGet_mapDelete_ne ts (Ne.symm (pkey_ne_ckey sid))] using hpt
  | some t =>
      cases hct : mapGet ts (ckey sid) with
      | none => simpa using mapGet_mapDelete_self (pkey sid) h
      | some t2 =>
          have h1 := mapGet_mapDelete_self (m := ts) (pkey sid) h
          simpa [mapGet_mapDelete_ne (mapDelete ts (pkey sid))
            (Ne.symm (pkey_ne_ckey sid))] using h1

theorem closeTransportsOf_get_ckey (ts : List (String × TransportH)) (sid : String)
    (h : keysNodup ts) : mapGet (closeTransportsOf ts sid).1 (ckey sid) = none := by
  unfold closeTransportsOf
  cases hpt : mapGet ts (pkey sid) with
  | none =>
      cases hct : mapGet ts (ckey sid) with
      | none => simpa using hct
      | some t => simpa using mapGet_mapDelete_self (ckey sid) h
  | some t =>
      cases hct : mapGet ts (ckey sid) with
      | none =>
          simpa [mapGet_mapDelete_ne ts (pkey_ne_ckey sid)] using hct
      | some t2 =>
          have hn : keysNodup (mapDelete ts (pkey sid)) := keysNodup_mapDelete (pkey sid) h
          simpa using mapGet_mapDelete_self (ckey sid) hn

theorem keysNodup_closeTransportsOf (ts : List (String × TransportH)) (sid : String)
    (h : keysNodup ts) : keysNodup (closeTransportsOf ts sid).1 := by
  unfold closeTransportsOf
  cases hpt : mapGet ts (pkey sid) with
  | none =>
      cases hct : mapGet ts (ckey sid) with
      | none => simpa using h
      | some t => simpa using keysNodup_mapDelete (ckey sid) h
  | some t =>
      cases hct : mapGet ts (ckey sid) with
      | none => simpa using keysNodup_mapDelete (pkey sid) h
      | some t2 =>
          simpa using keysNodup_mapDelete (ckey sid) (keysNodup_mapDelete (pkey sid) h)

theorem closeTransportsOf_of_absent (ts : List (String × TransportH)) (sid : String)
    (hp : mapGet ts (pkey sid) = none) (hc : mapGet ts (ckey sid) = none) :
    closeTransportsOf ts sid = (ts, []) := by
  unfold closeTransportsOf
  simp [hp, hc]

theorem filter_ne_idem (l : List String) (sid : String) :
    (l.filter (fun x => x ≠ sid)).filter (fun x => x ≠ sid) = l.filter (fun x => x ≠ sid) := by
  induction l with
  | nil => rfl
  | cons hd tl ih =>
      by_cases h : hd = sid
      · simp [h, ih]
      · simp [List.filter_cons, h, ih]

theorem mem_unique_of_keysNodup {α : Type} {m : List (String × α)} (h : keysNodup m)
    {k : String} {a b : α} (ha : (k, a) ∈ m) (hb : (k, b) ∈ m) : a = b := by
  induction m with
  | nil => cases ha
  | cons hd tl ih =>
      obtain ⟨k1, v1⟩ := hd
      have hx : (k1 :: mapKeys tl).Nodup := h
      rw [List.nodup_cons] at hx
      rcases List.mem_cons.mp ha with hae | hat <;> rcases List.mem_cons.mp hb with hbe | hbt
      · have h1 : a = v1 := congrArg Prod.snd hae
        have h2 : b = v1 := congrArg Prod.snd hbe
        rw [h1, h2]
      · exfalso
        have hk : k = k1 := congrArg Prod.fst hae
        exact hx.1 (by simpa [mapKeys, hk] using List.mem_map_of_mem (·.1) hbt)
      · exfalso
        have hk : k = k1 := congrArg Prod.fst hbe
        exact hx.1 (by simpa [mapKeys, hk] using List.mem_map_of_mem (·.1) hat)
      · exact ih hx.2 hat hbt

theorem handleProduce_transports (st : ServerState) (sid : String)
    (eng : Except String ProducerH) :
    (handleProduce st sid eng).1.transports = st.transports := by
  unfold handleProduce
  cases mapGet st.transports (pkey sid) with
  | none => rfl
  | some t =>
      cases eng with
      | error e => rfl
      | ok p => rfl

theorem handleConsume_transports (st : ServerState) (sid producerId : String)
    (canConsume : String → Nat → Bool) (eng : Except String ConsumerH) :
    (handleConsume st sid producerId canConsume eng).1.transports = st.transports := by
  unfold handleConsume
  cases mapGet st.transports (ckey sid) with
  | none => rfl
  | some t =>
      cases mapGet st.producers producerId with
      | none => rfl
      | some pe =>
          cases mapGet st.caps sid with
          | none => rfl
          | some c =>
              dsimp only
              cases canConsume producerId c with
              | false => rfl
              | true =>
                  cases eng with
                  | error e => rfl
                  | ok cons => rfl

theorem keysNodup_transports_applyOp (st : ServerState) (op : Op)
    (h : keysNodup st.transports) : keysNodup (applyOp st op).transports := by
  cases op with
  | createProducerTransport sid eng =>
      cases eng with
      | error e => exact h
      | ok t => exact keysNodup_mapSet (pkey sid) t h
  | createConsumerTransport sid eng =>
      cases eng with
      | error e => exact h
      | ok t => exact keysNodup_mapSet (ckey sid) t h
  | connectProducerTransport sid dtls eng => exact h
  | connectConsumerTransport sid dtls eng => exact h
  | produce sid eng =>
      show keysNodup (handleProduce st sid eng).1.transports
      rw [handleProduce_transports]
      exact h
  | consume sid producerId canC eng =>
      show keysNodup (handleConsume st sid producerId canC eng).1.transports
      rw [handleConsume_transports]
      exact h
  | resumeConsumer cid sid eng => exact h
  | getProducers sid => exact h
  | setRtpCapabilities sid c => exact h
  | disconnect sid => exact keysNodup_closeTransportsOf st.transports sid h

theorem keysNodup_transports_runOps (ops : List Op) :
    keysNodup (runOps ops).transports := by
  have hgen : ∀ (l : List Op) (st : ServerState), keysNodup st.transports →
      keysNodup (l.foldl applyOp st).transports := by
    intro l
    induction l with
    | nil => intro st h; exact h
    | cons op tl ih => intro st h; exact ih _ (keysNodup_transports_applyOp st op h)
  exact hgen ops initState List.nodup_nil

/-! ### Claim theorems -/

/-- C2, counterexample: a `resumeConsumer` request from socket `A` naming a
consumer owned by socket `B` succeeds with `{ success: true }` — the
handler checks only that the consumer id exists, never its owner — so the
claim that such a request must fail is false at this input. -/
theorem resume_foreign_consumer_succeeds :
    mapGet ([("c1", (⟨⟨"c1", MediaKind.video, "p1"⟩, "B"⟩ : ConsumerEntry))]) "c1" =
      some ⟨⟨"c1", MediaKind.video, "p1"⟩, "B"⟩ ∧
    ("B" : String) ≠ "A" ∧
    handleResumeConsumer
      ⟨[], [], [("c1", ⟨⟨"c1", MediaKind.video, "p1"⟩, "B"⟩)], [], [], ["A", "B"]⟩
      "c1" "A" (Except.ok ()) = Resp.ok := by
  refine ⟨rfl, by decide, rfl⟩

/-- C2, amended: `resumeConsumer` succeeds exactly when the consumer id
exists in the consumer registry and the engine resume call succeeds,
regardless of which peer issued the request or owns the consumer; an
unknown id is answered with the `Consumer not found` error. -/
theorem resume_requires_existence_only (st : ServerState) (cid sid sid2 : String)
    (eng : Except String Unit) :
    ((handleResumeConsumer st cid sid eng = Resp.ok) ↔
      ((mapGet st.consumers cid).isSome ∧ eng = Except.ok ())) ∧
    (mapGet st.consumers cid = none →
      handleResumeConsumer st cid sid eng = Resp.err "Consumer not found") ∧
    handleResumeConsumer st cid sid eng = handleResumeConsumer st cid sid2 eng := by
  refine ⟨?_, ?_, rfl⟩
  · unfold handleResumeConsumer
    cases hc : mapGet st.consumers cid with
    | none => simp
    | some ce =>
        cases eng with
        | ok u => simp
        | error e => simp
  · intro hc
    unfold handleResumeConsumer
    rw [hc]

/-- C2, witness for the amended theorem: at a registry holding consumer
`c1` owned by `B`, a resume of `c1` requested by `A` with a succeeding
engine call returns `{ success: true }`, and resuming the unknown id `c9`
returns the `Consumer not found` error. -/
theorem resume_requires_existence_only_witness :
    handleResumeConsumer
      ⟨[], [], [("c1", ⟨⟨"c1", MediaKind.video, "p1"⟩, "B"⟩)], [], [], ["A", "B"]⟩
      "c1" "A" (Except.ok ()) = Resp.ok ∧
    handleResumeConsumer
      ⟨[], [], [("c1", ⟨⟨"c1", MediaKind.video, "p1"⟩, "B"⟩)], [], [], ["A", "B"]⟩
      "c9" "A" (Except.ok ()) = Resp.err "Consumer not found" :=
  ⟨(resume_requires_existence_only
      ⟨[], [], [("c1", ⟨⟨"c1", MediaKind.video, "p1"⟩, "B"⟩)], [], [], ["A", "B"]⟩
      "c1" "A" "A" (Except.ok ())).1.mpr ⟨by decide, rfl⟩,
   (resume_requires_existence_only
      ⟨[], [], [("c1", ⟨⟨"c1", MediaKind.video, "p1"⟩, "B"⟩)], [], [], ["A", "B"]⟩
      "c9" "A" "A" (Except.ok ())).2.1 (by decide)⟩

/-- C3, counterexample: the claim says a `consume` issued before any
`setRtpCapabilities` call "always" fails with the capabilities-unset
error; but at a state where socket `A` also has no consumer transport
(capabilities indeed unset), the response is the transport-not-found
error, not the capabilities error, because the transport check runs
first. -/
theorem consume_before_caps_not_always_caps_error :
    mapGet (([] : List (String × Nat))) "A" = none ∧
    (handleConsume
        ⟨[], [("p1", ⟨⟨"p1", MediaKind.video⟩, "B"⟩)], [], [], [], ["A", "B"]⟩
        "A" "p1" (fun _ _ => true) (Except.error "eng")).2 =
      Resp.err "Consumer transport not found" ∧
    Resp.err "Consumer transport not found" ≠ Resp.err "RTP capabilities not set" := by
  refine ⟨rfl, rfl, by decide⟩

/-- C3, amended: provided the requesting peer has a recorded consumer
transport and the source producer exists, a `consume` before any
`setRtpCapabilities` call fails with the `RTP capabilities not set` error,
and a `consume` after setting capabilities that the Media Engine's
compatibility predicate rejects for this producer fails with the
`Cannot consume - incompatible RTP capabilities` error. -/
theorem capability_gating_amended (st : ServerState) (sid producerId : String)
    (canConsume : String → Nat → Bool) (eng : Except String ConsumerH)
    (t : TransportH) (pe : ProducerEntry)
    (ht : mapGet st.transports (ckey sid) = some t)
    (hp : mapGet st.producers producerId = some pe) :
    (mapGet st.caps sid = none →
      (handleConsume st sid producerId canConsume eng).2 =
        Resp.err "RTP capabilities not set") ∧
    (∀ c, mapGet st.caps sid = some c → canConsume producerId c = false →
      (handleConsume st sid producerId canConsume eng).2 =
        Resp.err "Cannot consume - incompatible RTP capabilities") := by
  constructor
  · intro hc
    unfold handleConsume
    rw [ht, hp, hc]
  · intro c hc hcc
    unfold handleConsume
    rw [ht, hp, hc]
    simp [hcc]

/-- C3, witness: with a consumer transport and producer `p1` present and
no capabilities stored for `A`, consume answers the capabilities-unset
error; once `A` stores capabilities that the predicate rejects, consume
answers the incompatibility error. -/
theorem capability_gating_amended_witness :
    (handleConsume
        ⟨[(ckey "A", ⟨"t1"⟩)], [("p1", ⟨⟨"p1", MediaKind.video⟩, "B"⟩)], [], [], [], ["A", "B"]⟩
        "A" "p1" (fun _ _ => false) (Except.error "eng")).2 =
      Resp.err "RTP capabilities not set" ∧
    (handleConsume
        ⟨[(ckey "A", ⟨"t1"⟩)], [("p1", ⟨⟨"p1", MediaKind.video⟩, "B"⟩)], [], [("A", 7)], [], ["A", "B"]⟩
        "A" "p1" (fun _ _ => false) (Except.error "eng")).2 =
      Resp.err "Cannot consume - incompatible RTP capabilities" :=
  ⟨(capability_gating_amended
      ⟨[(ckey "A", ⟨"t1"⟩)], [("p1", ⟨⟨"p1", MediaKind.video⟩, "B"⟩)], [], [], [], ["A", "B"]⟩
      "A" "p1" (fun _ _ => false) (Except.error "eng") ⟨"t1"⟩
      ⟨⟨"p1", MediaKind.video⟩, "B"⟩ (by decide) (by decide)).1 rfl,
   (capability_gating_amended
      ⟨[(ckey "A", ⟨"t1"⟩)], [("p1", ⟨⟨"p1", MediaKind.video⟩, "B"⟩)], [], [("A", 7)], [], ["A", "B"]⟩
      "A" "p1" (fun _ _ => false) (Except.error "eng") ⟨"t1"⟩
      ⟨⟨"p1", MediaKind.video⟩, "B"⟩ (by decide) (by decide)).2 7 (by decide) rfl⟩

/-- C4: when the Media Engine call of `createProducerTransport`, `produce`
or `consume` throws, the handler answers a structured error response and
the state — all registries included — is exactly the state before the
request; a failed creation is never stored. -/
theorem creation_atomic_on_engine_failure (st : ServerState) (sid producerId e : String)
    (canConsume : String → Nat → Bool) :
    (handleCreateProducerTransport st sid (Except.error e)).1 = st ∧
    (handleCreateProducerTransport st sid (Except.error e)).2 = Resp.err e ∧
    (handleProduce st sid (Except.error e)).1 = st ∧
    (∃ m, (handleProduce st sid (Except.error e)).2.1 = Resp.err m) ∧
    (handleConsume st sid producerId canConsume (Except.error e)).1 = st ∧
    (∃ m, (handleConsume st sid producerId canConsume (Except.error e)).2 = Resp.err m) := by
  have hprod : (handleProduce st sid (Except.error e)).1 = st ∧
      ∃ m, (handleProduce st sid (Except.error e)).2.1 = Resp.err m := by
    unfold handleProduce
    cases mapGet st.transports (pkey sid) with
    | none => exact ⟨rfl, ⟨"Producer transport not found", rfl⟩⟩
    | some t => exact ⟨rfl, ⟨e, rfl⟩⟩
  have hcons : (handleConsume st sid producerId canConsume (Except.error e)).1 = st ∧
      ∃ m, (handleConsume st sid producerId canConsume (Except.error e)).2 = Resp.err m := by
    unfold handleConsume
    cases mapGet st.transports (ckey sid) with
    | none => exact ⟨rfl, ⟨"Consumer transport not found", rfl⟩⟩
    | some t =>
        cases mapGet st.producers producerId with
        | none => exact ⟨rfl, ⟨"Producer not found", rfl⟩⟩
        | some pe =>
            cases mapGet st.caps sid with
            | none => exact ⟨rfl, ⟨"RTP capabilities not set", rfl⟩⟩
            | some c =>
                dsimp only
                cases hcc : canConsume producerId c with
                | false => exact ⟨rfl, ⟨"Cannot consume - incompatible RTP capabilities", rfl⟩⟩
                | true => exact ⟨rfl, ⟨e, rfl⟩⟩
  exact ⟨rfl, rfl, hprod.1, hprod.2, hcons.1, hcons.2⟩

/-- C8: a `connectProducerTransport` (resp. `connectConsumerTransport`)
request with no recorded transport of that direction is answered with the
structured `Producer transport not found` (resp. `Consumer transport not
found`) error; with a recorded transport, the dtls parameters are
forwarded to that stored transport's connect operation and its outcome is
returned as `{ success: true }` or its error message. -/
theorem connect_transport_behavior (st : ServerState) (sid : String) (dtls : Nat)
    (engP engC : TransportH → Nat → Except String Unit) :
    (mapGet st.transports (pkey sid) = none →
      handleConnectProducerTransport st sid dtls engP =
        Resp.err "Producer transport not found") ∧
    (∀ t, mapGet st.transports (pkey sid) = some t →
      handleConnectProducerTransport st sid dtls engP =
        match engP t dtls with
        | Except.ok _ => Resp.ok
        | Except.error m => Resp.err m) ∧
    (mapGet st.transports (ckey sid) = none →
      handleConnectConsumerTransport st sid dtls engC =
        Resp.err "Consumer transport not found") ∧
    (∀ t, mapGet st.transports (ckey sid) = some t →
      handleConnectConsumerTransport st sid dtls engC =
        match engC t dtls with
        | Except.ok _ => Resp.ok
        | Except.error m => Resp.err m) := by
  refine ⟨?_, ?_, ?_, ?_⟩
  · intro h
    unfold handleConnectProducerTransport
    rw [h]
  · intro t h
    unfold handleConnectProducerTransport
    rw [h]
  · intro h
    unfold handleConnectConsumerTransport
    rw [h]
  · intro t h
    unfold handleConnectConsumerTransport
    rw [h]

/-- C8, witness: at server start `A` has no producer transport and the
connect request is answered with the structured error; with a recorded
consumer transport and a succeeding engine connect, the request is
answered `{ success: true }`. -/
theorem connect_transport_behavior_witness :
    handleConnectProducerTransport initState "A" 0 (fun _ _ => Except.ok ()) =
      Resp.err "Producer transport not found" ∧
    handleConnectConsumerTransport
      ⟨[(ckey "A", ⟨"t1"⟩)], [], [], [], [], ["A"]⟩ "A" 0 (fun _ _ => Except.ok ()) =
      Resp.ok :=
  ⟨(connect_transport_behavior initState "A" 0
      (fun _ _ => Except.ok ()) (fun _ _ => Except.ok ())).1 rfl,
   (connect_transport_behavior ⟨[(ckey "A", ⟨"t1"⟩)], [], [], [], [], ["A"]⟩ "A" 0
      (fun _ _ => Except.ok ()) (fun _ _ => Except.ok ())).2.2.2 ⟨"t1"⟩ (by decide)⟩

/-- C10: the `consume` handler reports its precondition failures in a
fixed order — missing consumer transport first, then unknown producer,
then unset capabilities, then rejected compatibility; in particular a
request from a peer with neither a consumer transport nor capabilities is
answered with the transport error, not the capabilities error. -/
theorem consume_error_precedence (st : ServerState) (sid producerId : String)
    (canConsume : String → Nat → Bool) (eng : Except String ConsumerH) :
    (mapGet st.transports (ckey sid) = none →
      (handleConsume st sid producerId canConsume eng).2 =
        Resp.err "Consumer transport not found") ∧
    (∀ t, mapGet st.transports (ckey sid) = some t →
      mapGet st.producers producerId = none →
      (handleConsume st sid producerId canConsume eng).2 =
        Resp.err "Producer not found") ∧
    (∀ t pe, mapGet st.transports (ckey sid) = some t →
      mapGet st.producers producerId = some pe →
      mapGet st.caps sid = none →
      (handleConsume st sid producerId canConsume eng).2 =
        Resp.err "RTP capabilities not set") ∧
    (∀ t pe c, mapGet st.transports (ckey sid) = some t →
      mapGet st.producers producerId = some pe →
      mapGet st.caps sid = some c →
      canConsume producerId c = false →
      (handleConsume st sid producerId canConsume eng).2 =
        Resp.err "Cannot consume - incompatible RTP capabilities") := by
  refine ⟨?_, ?_, ?_, ?_⟩
  · intro h
    unfold handleConsume
    rw [h]
  · intro t ht hp
    unfold handleConsume
    rw [ht, hp]
  · intro t pe ht hp hc
    unfold handleConsume
    rw [ht, hp, hc]
  · intro t pe c ht hp hc hcc
    unfold handleConsume
    rw [ht, hp, hc]
    simp [hcc]

/-- C6: in a successful `produce`, the event trace is exactly the registry
commit followed by the `newProducer` broadcast, so every broadcast in the
trace is preceded by the commit of the same producer id; the broadcast
producer id is present in the post-state registry; and when the engine
call fails, the trace is empty — other peers are never told of a producer
that failed to materialize. -/
theorem produce_broadcast_after_commit (st : ServerState) (sid : String)
    (p : ProducerH) (t : TransportH)
    (ht : mapGet st.transports (pkey sid) = some t) :
    ((handleProduce st sid (Except.ok p)).2.2 =
      [Event.producerStored p.id, Event.newProducer p.id sid]) ∧
    (mapGet (handleProduce st sid (Except.ok p)).1.producers p.id = some ⟨p, sid⟩) ∧
    (∀ j pid fromSid,
      (handleProduce st sid (Except.ok p)).2.2.get? j =
        some (Event.newProducer pid fromSid) →
      ∃ i, i < j ∧
        (handleProduce st sid (Except.ok p)).2.2.get? i =
          some (Event.producerStored pid)) ∧
    (∀ e, (handleProduce st sid (Except.error e)).2.2 = ([] : List Event)) := by
  have hev : (handleProduce st sid (Except.ok p)).2.2 =
      [Event.producerStored p.id, Event.newProducer p.id sid] := by
    unfold handleProduce
    rw [ht]
  refine ⟨hev, ?_, ?_, ?_⟩
  · unfold handleProduce
    rw [ht]
    dsimp only
    exact mapGet_mapSet_self st.producers p.id ⟨p, sid⟩
  · intro j pid fromSid hj
    rw [hev] at hj
    cases j with
    | zero => simp at hj
    | succ j1 =>
        cases j1 with
        | zero =>
            have hpid : p.id = pid := by
              simp at hj
              exact hj.1
            refine ⟨0, Nat.zero_lt_one, ?_⟩
            rw [hev, ← hpid]
            rfl
        | succ j2 => simp at hj
  · intro e
    unfold handleProduce
    rw [ht]

/-- C6, witness: with a producer transport recorded for `A`, producing
`p1` yields the commit-then-broadcast trace and the registry holds `p1`
afterwards. -/
theorem produce_broadcast_after_commit_witness :
    (handleProduce ⟨[(pkey "A", ⟨"t1"⟩)], [], [], [], [], ["A", "B"]⟩ "A"
        (Except.ok ⟨"p1", MediaKind.video⟩)).2.2 =
      [Event.producerStored "p1", Event.newProducer "p1" "A"] ∧
    mapGet (handleProduce ⟨[(pkey "A", ⟨"t1"⟩)], [], [], [], [], ["A", "B"]⟩ "A"
        (Except.ok ⟨"p1", MediaKind.video⟩)).1.producers "p1" =
      some ⟨⟨"p1", MediaKind.video⟩, "A"⟩ :=
  ⟨(produce_broadcast_after_commit ⟨[(pkey "A", ⟨"t1"⟩)], [], [], [], [], ["A", "B"]⟩
      "A" ⟨"p1", MediaKind.video⟩ ⟨"t1"⟩ (by decide)).1,
   (produce_broadcast_after_commit ⟨[(pkey "A", ⟨"t1"⟩)], [], [], [], [], ["A", "B"]⟩
      "A" ⟨"p1", MediaKind.video⟩ ⟨"t1"⟩ (by decide)).2.1⟩

/-- C7: the `getProducers` response is exactly the
`(producer id, owner socket id)` pairs of registry entries owned by other
peers — never one owned by the caller — and the `newProducer` broadcast of
a successful `produce` is delivered to every connected peer except the
producing one. -/
theorem exclusion_correctness (st : ServerState) (sid : String)
    (p : ProducerH) (t : TransportH) :
    (∀ producerId owner, (producerId, owner) ∈ handleGetProducers st sid ↔
      ∃ k e, (k, e) ∈ st.producers ∧ e.producer.id = producerId ∧
        e.socketId = owner ∧ owner ≠ sid) ∧
    (∀ pr ∈ handleGetProducers st sid, Prod.snd pr ≠ sid) ∧
    (mapGet st.transports (pkey sid) = some t →
      Event.newProducer p.id sid ∈ (handleProduce st sid (Except.ok p)).2.2) ∧
    (∀ pid fromSid x,
      x ∈ eventRecipients st.connected (Event.newProducer pid fromSid) ↔
        (x ∈ st.connected ∧ x ≠ fromSid)) := by
  refine ⟨?_, ?_, ?_, ?_⟩
  · intro producerId owner
    constructor
    · intro hm
      unfold handleGetProducers at hm
      simp only [List.mem_map, List.mem_filter] at hm
      obtain ⟨e, ⟨⟨q, hq, rfl⟩, hne⟩, heq⟩ := hm
      have h1 : q.2.producer.id = producerId := congrArg Prod.fst heq
      have h2 : q.2.socketId = owner := congrArg Prod.snd heq
      refine ⟨q.1, q.2, hq, h1, h2, ?_⟩
      rw [← h2]
      simpa using hne
    · rintro ⟨k, e, hke, hid, hown, hne⟩
      unfold handleGetProducers
      simp only [List.mem_map, List.mem_filter]
      refine ⟨e, ⟨⟨(k, e), hke, rfl⟩, ?_⟩, ?_⟩
      · simpa [hown] using hne
      · rw [hid, hown]
  · intro pr hpr
    unfold handleGetProducers at hpr
    simp only [List.mem_map, List.mem_filter] at hpr
    obtain ⟨e, ⟨hm1, hne⟩, rfl⟩ := hpr
    simpa using hne
  · intro ht
    unfold handleProduce
    rw [ht]
    dsimp only
    simp
  · intro pid fromSid x
    simp [eventRecipients, List.mem_filter]

/-- C7, witness: with producers of `A` and `B` registered, `B`'s
`getProducers` lists exactly `A`'s producer, and the broadcast recipients
of `A`'s `newProducer` among connected `[A, B, C]` are `B` and `C`. -/
theorem exclusion_correctness_witness :
    ("p1", "A") ∈ handleGetProducers
      ⟨[], [("p1", ⟨⟨"p1", MediaKind.video⟩, "A"⟩), ("p2", ⟨⟨"p2", MediaKind.audio⟩, "B"⟩)],
        [], [], [], ["A", "B", "C"]⟩ "B" ∧
    ("B" : String) ∈ eventRecipients ["A", "B", "C"] (Event.newProducer "p1" "A") ∧
    ("A" : String) ∉ eventRecipients ["A", "B", "C"] (Event.newProducer "p1" "A") :=
  ⟨(exclusion_correctness
      ⟨[], [("p1", ⟨⟨"p1", MediaKind.video⟩, "A"⟩), ("p2", ⟨⟨"p2", MediaKind.audio⟩, "B"⟩)],
        [], [], [], ["A", "B", "C"]⟩ "B" ⟨"p1", MediaKind.video⟩ ⟨"t1"⟩).1 "p1" "A"
      |>.mpr ⟨"p1", ⟨⟨"p1", MediaKind.video⟩, "A"⟩, by decide, rfl, rfl, by decide⟩,
   ((exclusion_correctness
      ⟨[], [("p1", ⟨⟨"p1", MediaKind.video⟩, "A"⟩), ("p2", ⟨⟨"p2", MediaKind.audio⟩, "B"⟩)],
        [], [], [], ["A", "B", "C"]⟩ "B" ⟨"p1", MediaKind.video⟩ ⟨"t1"⟩).2.2.2 "p1" "A" "B").mpr
      ⟨by decide, by decide⟩,
   fun hmem =>
     absurd (((exclusion_correctness
      ⟨[], [("p1", ⟨⟨"p1", MediaKind.video⟩, "A"⟩), ("p2", ⟨⟨"p2", MediaKind.audio⟩, "B"⟩)],
        [], [], [], ["A", "B", "C"]⟩ "B" ⟨"p1", MediaKind.video⟩ ⟨"t1"⟩).2.2.2 "p1" "A" "A").mp
        hmem).2 (by decide)⟩

/-- C10, witness: socket `A` has no consumer transport and no stored
capabilities, yet the response is the transport error — the transport
check precedes the capabilities check. -/
theorem consume_error_precedence_witness :
    mapGet (⟨[], [], [], [], [], ["A"]⟩ : ServerState).transports (ckey "A") = none ∧
    mapGet (⟨[], [], [], [], [], ["A"]⟩ : ServerState).caps "A" = none ∧
    (handleConsume ⟨[], [], [], [], [], ["A"]⟩ "A" "p1"
        (fun _ _ => true) (Except.error "eng")).2 =
      Resp.err "Consumer transport not found" :=
  ⟨rfl, rfl,
   (consume_error_precedence ⟨[], [], [], [], [], ["A"]⟩ "A" "p1"
      (fun _ _ => true) (Except.error "eng")).1 rfl⟩

/-- C9: after any sequence of socket events from server start, every peer
has at most one recorded producer-side and at most one consumer-side
transport; a successful `create*Transport` makes the new transport the
registry entry for that `(peer, direction)` key, replacing any prior one;
and the replacement closes nothing — the set of engine-closed resources is
untouched by transport creation. -/
theorem transport_uniqueness (ops : List Op) (sid : String)
    (st : ServerState) (t : TransportH) :
    countKey (runOps ops).transports (pkey sid) ≤ 1 ∧
    countKey (runOps ops).transports (ckey sid) ≤ 1 ∧
    mapGet (handleCreateProducerTransport st sid (Except.ok t)).1.transports
      (pkey sid) = some t ∧
    (handleCreateProducerTransport st sid (Except.ok t)).1.engineClosed =
      st.engineClosed ∧
    mapGet (handleCreateConsumerTransport st sid (Except.ok t)).1.transports
      (ckey sid) = some t ∧
    (handleCreateConsumerTransport st sid (Except.ok t)).1.engineClosed =
      st.engineClosed :=
  ⟨countKey_le_one _ (keysNodup_transports_runOps ops),
   countKey_le_one _ (keysNodup_transports_runOps ops),
   mapGet_mapSet_self st.transports (pkey sid) t,
   rfl,
   mapGet_mapSet_self st.transports (ckey sid) t,
   rfl⟩

/-- C5: running the disconnect cascade a second time for the same peer is
a no-op — it returns the state of the first run unchanged and emits no
events, so no duplicate `producerClosed` broadcasts and nothing newly
closed. -/
theorem teardown_idempotent (st : ServerState) (sid : String)
    (h : keysNodup st.transports) :
    handleDisconnect (handleDisconnect st sid).1 sid =
      ((handleDisconnect st sid).1, []) := by
  have hp := closeTransportsOf_get_pkey st.transports sid h
  have hc := closeTransportsOf_get_ckey st.transports sid h
  have hT : closeTransportsOf (closeTransportsOf st.transports sid).1 sid =
      ((closeTransportsOf st.transports sid).1, []) :=
    closeTransportsOf_of_absent _ sid hp hc
  have hP := removeOwned_idem (·.socketId) st.producers sid
  have hC := removeOwned_idem (·.socketId) st.consumers sid
  unfold handleDisconnect removeOwnedProducers removeOwnedConsumers
  dsimp only
  rw [hT, hP, hC]
  simp [filter_ne_idem]

/-- C5, witness: at a state holding both transports, a producer and a
consumer for peer `A` (with well-formed transport keys), the second
disconnect of `A` returns the first run's state and an empty event list. -/
theorem teardown_idempotent_witness :
    keysNodup (⟨[(pkey "A", ⟨"t1"⟩), (ckey "A", ⟨"t2"⟩)],
      [("p1", ⟨⟨"p1", MediaKind.video⟩, "A"⟩)],
      [("c1", ⟨⟨"c1", MediaKind.video, "p1"⟩, "A"⟩)],
      [("A", 5)], [], ["A", "B"]⟩ : ServerState).transports ∧
    handleDisconnect
      (handleDisconnect ⟨[(pkey "A", ⟨"t1"⟩), (ckey "A", ⟨"t2"⟩)],
        [("p1", ⟨⟨"p1", MediaKind.video⟩, "A"⟩)],
        [("c1", ⟨⟨"c1", MediaKind.video, "p1"⟩, "A"⟩)],
        [("A", 5)], [], ["A", "B"]⟩ "A").1 "A" =
      ((handleDisconnect ⟨[(pkey "A", ⟨"t1"⟩), (ckey "A", ⟨"t2"⟩)],
        [("p1", ⟨⟨"p1", MediaKind.video⟩, "A"⟩)],
        [("c1", ⟨⟨"c1", MediaKind.video, "p1"⟩, "A"⟩)],
        [("A", 5)], [], ["A", "B"]⟩ "A").1, []) :=
  ⟨by decide,
   teardown_idempotent ⟨[(pkey "A", ⟨"t1"⟩), (ckey "A", ⟨"t2"⟩)],
      [("p1", ⟨⟨"p1", MediaKind.video⟩, "A"⟩)],
      [("c1", ⟨⟨"c1", MediaKind.video, "p1"⟩, "A"⟩)],
      [("A", 5)], [], ["A", "B"]⟩ "A" (by decide)⟩

/-- C1, counterexample: peer `A` owns producer `p1`; peer `B` holds
consumer `c1` whose source is `p1`.  After `A`'s disconnect removes `p1`
from the producer registry, consumer `c1` — sourced from `p1` but owned by
`B` — is still in the consumer registry: the cascade removes only the
departing peer's own consumers, so the claim that every consumer sourced
from a removed producer is removed regardless of owner is false at this
input. -/
theorem orphaned_consumer_after_disconnect :
    mapGet (handleDisconnect
      ⟨[], [("p1", ⟨⟨"p1", MediaKind.video⟩, "A"⟩)],
        [("c1", ⟨⟨"c1", MediaKind.video, "p1"⟩, "B"⟩)], [], [], ["A", "B"]⟩
      "A").1.producers "p1" = none ∧
    mapGet (handleDisconnect
      ⟨[], [("p1", ⟨⟨"p1", MediaKind.video⟩, "A"⟩)],
        [("c1", ⟨⟨"c1", MediaKind.video, "p1"⟩, "B"⟩)], [], [], ["A", "B"]⟩
      "A").1.consumers "c1" = some ⟨⟨"c1", MediaKind.video, "p1"⟩, "B"⟩ :=
  ⟨rfl, rfl⟩

/-- C1, amended: when a peer disconnects, every producer it owns is
removed and announced as closed by exactly one `producerClosed` broadcast
per producer, delivered to every other connected peer; but from the
consumer registry only the consumers owned by the departing peer itself
are closed and removed — a consumer of another peer sourced from a removed
producer stays registered. -/
theorem disconnect_cascade_amended (st : ServerState) (sid : String)
    (h : keysNodup st.producers) :
    (∀ cid ce, (cid, ce) ∈ (handleDisconnect st sid).1.consumers ↔
      ((cid, ce) ∈ st.consumers ∧ ce.socketId ≠ sid)) ∧
    (∀ cid ce, (cid, ce) ∈ st.consumers → ce.socketId = sid →
      cid ∈ (handleDisconnect st sid).1.engineClosed) ∧
    (∀ pid pe, (pid, pe) ∈ st.producers → pe.socketId = sid →
      (((handleDisconnect st sid).2.count (Event.producerClosed pid sid) = 1) ∧
        ∀ pe2, (pid, pe2) ∉ (handleDisconnect st sid).1.producers)) ∧
    (∀ ev ∈ (handleDisconnect st sid).2, ∀ x,
      x ∈ eventRecipients st.connected ev ↔ (x ∈ st.connected ∧ x ≠ sid)) := by
  have hsnd := removeOwned_snd (fun x => ConsumerEntry.socketId x) st.consumers sid
  have hsndP := removeOwned_snd (fun x => ProducerEntry.socketId x) st.producers sid
  refine ⟨?_, ?_, ?_, ?_⟩
  · intro cid ce
    exact removeOwned_fst_mem (fun x => ConsumerEntry.socketId x) st.consumers sid cid ce
  · intro cid ce hm he
    show cid ∈ st.engineClosed ++ (closeTransportsOf st.transports sid).2 ++
      (removeOwned (fun x => ProducerEntry.socketId x) st.producers sid).2 ++
      (removeOwned (fun x => ConsumerEntry.socketId x) st.consumers sid).2
    have hfil : (cid, ce) ∈ st.consumers.filter (fun q => q.2.socketId = sid) :=
      List.mem_filter.mpr ⟨hm, by simp [he]⟩
    have hcid : cid ∈ (removeOwned (fun x => ConsumerEntry.socketId x)
        st.consumers sid).2 := by
      rw [hsnd]
      exact List.mem_map_of_mem (·.1) hfil
    simp [List.mem_append, hcid]
  · intro pid pe hm he
    have hfil : (pid, pe) ∈ st.producers.filter (fun q => q.2.socketId = sid) :=
      List.mem_filter.mpr ⟨hm, by simp [he]⟩
    have hpid : pid ∈ (removeOwned (fun x => ProducerEntry.socketId x)
        st.producers sid).2 := by
      rw [hsndP]
      exact List.mem_map_of_mem (·.1) hfil
    have hnd : ((removeOwned (fun x => ProducerEntry.socketId x)
        st.producers sid).2).Nodup := by
      rw [hsndP]
      exact List.Nodup.sublist
        (List.Sublist.map (·.1) (List.filter_sublist st.producers)) h
    constructor
    · show ((removeOwned (fun x => ProducerEntry.socketId x) st.producers sid).2.map
        (fun q => Event.producerClosed q sid)).count (Event.producerClosed pid sid) = 1
      have hinj : Function.Injective (fun q => Event.producerClosed q sid) := by
        intro a b hab
        injection hab with h1 h2
      rw [List.count_map_of_injective _ _ hinj]
      exact List.count_eq_one_of_mem hnd hpid
    · intro pe2 hmem
      have h2 := (removeOwned_fst_mem (fun x => ProducerEntry.socketId x)
        st.producers sid pid pe2).mp hmem
      have hpe : pe = pe2 := mem_unique_of_keysNodup h hm h2.1
      exact h2.2 (by rw [← hpe]; exact he)
  · intro ev hev x
    have hev2 : ∃ q, ev = Event.producerClosed q sid := by
      have hx : ev ∈ (removeOwned (fun x => ProducerEntry.socketId x)
          st.producers sid).2.map (fun q => Event.producerClosed q sid) := hev
      obtain ⟨q, hq, hqe⟩ := List.mem_map.mp hx
      exact ⟨q, hqe.symm⟩
    obtain ⟨q, rfl⟩ := hev2
    simp [eventRecipients, List.mem_filter]

/-- C1, witness for the amended theorem: `A` owns producer `p1` and
consumer `c2`; `B` holds consumer `c1` sourced from `p1`.  On `A`'s
disconnect, `p1` is broadcast exactly once, `A`'s own consumer `c2` is
closed, and `B`'s consumer `c1` survives in the registry. -/
theorem disconnect_cascade_amended_witness :
    (handleDisconnect
      ⟨[], [("p1", ⟨⟨"p1", MediaKind.video⟩, "A"⟩)],
        [("c1", ⟨⟨"c1", MediaKind.video, "p1"⟩, "B"⟩),
         ("c2", ⟨⟨"c2", MediaKind.audio, "p9"⟩, "A"⟩)], [], [], ["A", "B"]⟩
      "A").2.count (Event.producerClosed "p1" "A") = 1 ∧
    "c2" ∈ (handleDisconnect
      ⟨[], [("p1", ⟨⟨"p1", MediaKind.video⟩, "A"⟩)],
        [("c1", ⟨⟨"c1", MediaKind.video, "p1"⟩, "B"⟩),
         ("c2", ⟨⟨"c2", MediaKind.audio, "p9"⟩, "A"⟩)], [], [], ["A", "B"]⟩
      "A").1.engineClosed ∧
    (("c1", (⟨⟨"c1", MediaKind.video, "p1"⟩, "B"⟩ : ConsumerEntry)) ∈
      (handleDisconnect
        ⟨[], [("p1", ⟨⟨"p1", MediaKind.video⟩, "A"⟩)],
          [("c1", ⟨⟨"c1", MediaKind.video, "p1"⟩, "B"⟩),
           ("c2", ⟨⟨"c2", MediaKind.audio, "p9"⟩, "A"⟩)], [], [], ["A", "B"]⟩
        "A").1.consumers) :=
  ⟨((disconnect_cascade_amended
      ⟨[], [("p1", ⟨⟨"p1", MediaKind.video⟩, "A"⟩)],
        [("c1", ⟨⟨"c1", MediaKind.video, "p1"⟩, "B"⟩),
         ("c2", ⟨⟨"c2", MediaKind.audio, "p9"⟩, "A"⟩)], [], [], ["A", "B"]⟩
      "A" (by decide)).2.2.1 "p1" ⟨⟨"p1", MediaKind.video⟩, "A"⟩
      (by decide) rfl).1,
   (disconnect_cascade_amended
      ⟨[], [("p1", ⟨⟨"p1", MediaKind.video⟩, "A"⟩)],
        [("c1", ⟨⟨"c1", MediaKind.video, "p1"⟩, "B"⟩),
         ("c2", ⟨⟨"c2", MediaKind.audio, "p9"⟩, "A"⟩)], [], [], ["A", "B"]⟩
      "A" (by decide)).2.1 "c2" ⟨⟨"c2", MediaKind.audio, "p9"⟩, "A"⟩
      (by decide) rfl,
   ((disconnect_cascade_amended
      ⟨[], [("p1", ⟨⟨"p1", MediaKind.video⟩, "A"⟩)],
        [("c1", ⟨⟨"c1", MediaKind.video, "p1"⟩, "B"⟩),
         ("c2", ⟨⟨"c2", MediaKind.audio, "p9"⟩, "A"⟩)], [], [], ["A", "B"]⟩
      "A" (by decide)).1 "c1" ⟨⟨"c1", MediaKind.video, "p1"⟩, "B"⟩).mpr
      ⟨by decide, by decide⟩⟩

end CallingApp
